import Mathlib

/-!
Verification development for the email-assistant HITL workflow
(`src/email_assistant/email_assistant_hitl_memory_gmail.py`).

The shallow embedding below translates the workflow nodes of that file:
the preference store helpers (`get_memory`, `update_memory`), the triage
router, the triage interrupt handler, the tool-call interrupt handler
(Review Gate) and the loop-continuation check (`should_continue`).

Opaque external capabilities (the LLM classifier, the LLM profile-merge
call, tool execution, the human review channel, and the pure
markdown/display formatters of `utils.py`) are modelled as function
parameters; the control flow, branch conditions, message construction and
store mutations are translated statement-by-statement from the source.
-/

/-- Tool-call proposal: `{name, arguments, call id}` as produced by the
model step.  Arguments are opaque to the workflow (it only forwards or
replaces them), so they are modelled as an uninterpreted `String`. -/
structure ToolCall where
  name : String
  args : String
  id : String
deriving DecidableEq

/-- Conversation message: role-tagged entry; assistant entries carry the
list of proposed tool calls, tool entries carry the id of the call they
answer. -/
inductive Msg where
  | user (content : String)
  | assistant (content : String) (tool_calls : List ToolCall)
  | tool (content : String) (tool_call_id : String)
deriving DecidableEq

/-- Python accesses `message.tool_calls`; only assistant messages carry
proposals. -/
def Msg.toolCalls : Msg → List ToolCall
  | .assistant _ tcs => tcs
  | _ => []

/-- One record of the LangGraph `BaseStore`: (namespace tuple, key, value). -/
structure StoreEntry where
  ns : String × String
  key : String
  value : String
deriving DecidableEq

/-- The preference store: a finite map from (namespace, key) to a value,
kept as a list of entries. -/
structure Store where
  entries : List StoreEntry
deriving DecidableEq

/-- Lookup helper for `Store.get`. -/
def lookupEntry : List StoreEntry → String × String → String → Option String
  | [], _, _ => none
  | e :: rest, ns, key =>
      if e.ns = ns ∧ e.key = key then some e.value else lookupEntry rest ns key

/-- Model of `BaseStore.get(namespace, key)`: `none` when absent (Python
returns `None`; a present `Item` object is always truthy). -/
def Store.get (s : Store) (ns : String × String) (key : String) : Option String :=
  lookupEntry s.entries ns key

/-- Model of `BaseStore.put(namespace, key, value)`: upsert, replacing any
previous value under the same (namespace, key). -/
def Store.put (s : Store) (ns : String × String) (key : String) (v : String) : Store :=
  ⟨⟨ns, key, v⟩ :: s.entries.filter (fun e => !(e.ns == ns && e.key == key))⟩

/-- The opaque LLM profile-merge capability used by `update_memory`:
given the namespace, the current profile text and the rationale
messages, it produces the new profile text. -/
def MergeFn : Type := String × String → String → List Msg → String

/-- Model of `get_memory(store, namespace, default_content)` (lines
31-56): return the stored value under key "user_preferences" when
present; otherwise put the default and return it. -/
def get_memory (store : Store) (ns : String × String) (default_content : String) :
    String × Store :=
  match store.get ns "user_preferences" with
  | some v => (v, store)
  | none => (default_content, store.put ns "user_preferences" default_content)

/-- Model of `update_memory(store, namespace, messages)` (lines 58-77):
reads the record and dereferences `.value` with no presence check — a
missing record is a fatal `AttributeError` on `None`; otherwise the merge
result replaces the whole stored profile via `store.put`. -/
def update_memory (merge : MergeFn) (store : Store) (ns : String × String)
    (messages : List Msg) : Except String Store :=
  match store.get ns "user_preferences" with
  | none => .error "AttributeError: NoneType object has no attribute value"
  | some current => .ok (store.put ns "user_preferences" (merge ns current messages))

/-- Reading a key just written returns the written value. -/
theorem Store.get_put_same (s : Store) (ns : String × String) (key v : String) :
    (s.put ns key v).get ns key = some v := by
  simp [Store.put, Store.get, lookupEntry]

/-- C8: `get_memory` returns the stored profile when one exists, else
stores and returns the supplied default; and it is idempotent — a second
call on the resulting store returns exactly the first call's value and
leaves the store unchanged, regardless of the second default. -/
theorem get_memory_idempotent (store : Store) (ns : String × String) (d1 d2 : String) :
    (∀ v, store.get ns "user_preferences" = some v → get_memory store ns d1 = (v, store)) ∧
    (store.get ns "user_preferences" = none →
      get_memory store ns d1 = (d1, store.put ns "user_preferences" d1)) ∧
    get_memory (get_memory store ns d1).2 ns d2 =
      ((get_memory store ns d1).1, (get_memory store ns d1).2) := by
  refine ⟨fun v hv => by simp [get_memory, hv], fun hn => by simp [get_memory, hn], ?_⟩
  cases h : store.get ns "user_preferences" with
  | none => simp [get_memory, h, Store.get_put_same]
  | some v => simp [get_memory, h]

/-- Witness for C8: concrete evaluations discharging both hypotheses of
`get_memory_idempotent`. -/
theorem get_memory_idempotent_witness :
    get_memory ⟨[⟨("email_assistant", "triage_preferences"), "user_preferences", "p"⟩]⟩
        ("email_assistant", "triage_preferences") "d1" =
      ("p", ⟨[⟨("email_assistant", "triage_preferences"), "user_preferences", "p"⟩]⟩) ∧
    get_memory ⟨[]⟩ ("email_assistant", "triage_preferences") "d1" =
      ("d1", Store.put ⟨[]⟩ ("email_assistant", "triage_preferences") "user_preferences" "d1") ∧
    get_memory (get_memory ⟨[]⟩ ("email_assistant", "triage_preferences") "d1").2
        ("email_assistant", "triage_preferences") "d2" =
      ((get_memory ⟨[]⟩ ("email_assistant", "triage_preferences") "d1").1,
        (get_memory ⟨[]⟩ ("email_assistant", "triage_preferences") "d1").2) := by
  refine ⟨?_, ?_, ?_⟩
  · exact (get_memory_idempotent _ _ "d1" "d2").1 "p" (by decide)
  · exact (get_memory_idempotent _ _ "d1" "d2").2.1 (by decide)
  · exact (get_memory_idempotent ⟨[]⟩ ("email_assistant", "triage_preferences") "d1" "d2").2.2

/-- C10: `update_memory` presupposes an initialized namespace — on a
namespace with no stored record it fails (the `.value` dereference of
`None`) instead of creating the record; and after `get_memory` has run
for that namespace, the record is present, so `update_memory` succeeds
and replaces the whole stored profile with the merge result. -/
theorem update_memory_requires_init (merge : MergeFn) (store : Store)
    (ns : String × String) (msgs : List Msg) (d : String) :
    (store.get ns "user_preferences" = none →
      update_memory merge store ns msgs =
        .error "AttributeError: NoneType object has no attribute value") ∧
    (∃ current,
      ((get_memory store ns d).2).get ns "user_preferences" = some current ∧
      update_memory merge (get_memory store ns d).2 ns msgs =
        .ok (((get_memory store ns d).2).put ns "user_preferences"
          (merge ns current msgs))) := by
  constructor
  · intro hn
    simp [update_memory, hn]
  · cases h : store.get ns "user_preferences" with
    | none =>
        refine ⟨d, ?_, ?_⟩
        · simp [get_memory, h, Store.get_put_same]
        · simp [update_memory, get_memory, h, Store.get_put_same]
    | some v =>
        refine ⟨v, ?_, ?_⟩
        · simp [get_memory, h]
        · simp [update_memory, get_memory, h]

/-- Graph nodes a workflow node can route to (the `Command[Literal[...]]`
targets and `END`). -/
inductive GraphNode where
  | response_agent
  | triage_interrupt_handler
  | llm_call
  | interrupt_handler
  | mark_as_read_node
  | end_
deriving DecidableEq

/-- A decision arriving from the human review channel: the raw
`response["type"]` string and its payload (`response["args"]`; for an
edit decision the payload models `response["args"]["args"]`, the edited
tool arguments). -/
structure Response where
  ty : String
  args : String
deriving DecidableEq

/-- Modelled from the spec: `default_triage_instructions` lives in
`prompts.py`, which is not part of the sources; per the spec it is a
caller-constant, non-empty default profile text whose concrete wording
the workflow never inspects. -/
def default_triage_instructions : String := "default triage instructions"

/-- Result of the triage router: next node plus the state update
(`classification_decision` and appended messages) and the store as left
by its `get_memory` call. -/
structure TriageCommand where
  goto : GraphNode
  classification_decision : String
  messages : List Msg
  store : Store
deriving DecidableEq

/-- Model of `triage_router` (lines 80-154).  The LLM classifier is
opaque, so its output `classification` is a parameter, as is the
`email_markdown` produced by the pure formatters.  Note the
`get_memory` call on the triage-preferences namespace happens before the
classification branch, on every path. -/
def triage_router (classification : String) (email_markdown : String) (store : Store) :
    Except String TriageCommand :=
  let store1 := (get_memory store ("email_assistant", "triage_preferences")
    default_triage_instructions).2
  if classification = "respond" then
    .ok ⟨.response_agent, classification,
      [.user ("Respond to the email: " ++ email_markdown)], store1⟩
  else if classification = "ignore" then
    .ok ⟨.end_, classification, [], store1⟩
  else if classification = "notify" then
    .ok ⟨.triage_interrupt_handler, classification, [], store1⟩
  else
    .error ("Invalid classification: " ++ classification)

/-- Model of `triage_interrupt_handler` (lines 156-223): surface the
notification, then branch on the human decision type — "response" routes
to the response agent, "ignore" routes to `END`, anything else raises. -/
def triage_interrupt_handler (merge : MergeFn) (email_markdown : String)
    (response : Response) (store : Store) : Except String (GraphNode × List Msg × Store) :=
  let messages : List Msg := [.user ("Email to notify user about: " ++ email_markdown)]
  if response.ty = "response" then
    let messages := messages ++
      [.user ("User wants to reply to the email. Use this feedback to respond: " ++
        response.args)]
    match update_memory merge store ("email_assistant", "triage_preferences")
        ([Msg.user "The user decided to respond to the email, so update the triage preferences to capture this."] ++ messages) with
    | .error e => .error e
    | .ok store1 => .ok (.response_agent, messages, store1)
  else if response.ty = "ignore" then
    let messages := messages ++
      [.user "The user decided to ignore the email even though it was classified as notify. Update triage preferences to capture this."]
    match update_memory merge store ("email_assistant", "triage_preferences") messages with
    | .error e => .error e
    | .ok store1 => .ok (.end_, messages, store1)
  else
    .error ("Invalid response: " ++ response.ty)

/-- Python accesses `.content` on messages. -/
def Msg.content : Msg → String
  | .user c => c
  | .assistant c _ => c
  | .tool c _ => c

/-- Modelled from the spec: `MEMORY_UPDATE_INSTRUCTIONS_REINFORCEMENT`
lives in `prompts.py`, which is not part of the sources; it is a constant
prompt suffix whose wording the workflow never inspects. -/
def MEMORY_UPDATE_INSTRUCTIONS_REINFORCEMENT : String :=
  "memory update instructions reinforcement"

/-- The tools routed through human review (line 263). -/
def hitl_tools : List String := ["send_email_tool", "schedule_meeting_tool", "Question"]

/-- Capability mask of allowed decision types for one review request. -/
structure ReviewConfig where
  allow_ignore : Bool
  allow_respond : Bool
  allow_edit : Bool
  allow_accept : Bool
deriving DecidableEq

/-- The config chain of lines 284-306: per-tool capability masks, with a
fatal error for any other name. -/
def review_config (name : String) : Except String ReviewConfig :=
  if name = "send_email_tool" then .ok ⟨true, true, true, true⟩
  else if name = "schedule_meeting_tool" then .ok ⟨true, true, true, true⟩
  else if name = "Question" then .ok ⟨true, true, false, false⟩
  else .error ("Invalid tool call: " ++ name)

/-- Whether a decision type is inside the capability mask advertised for
the action. -/
def decision_allowed (cfg : ReviewConfig) (ty : String) : Bool :=
  (ty == "accept" && cfg.allow_accept) || (ty == "edit" && cfg.allow_edit) ||
    (ty == "response" && cfg.allow_respond) || (ty == "ignore" && cfg.allow_ignore)

/-- A review request surfaced to the Agent Inbox (lines 309-316). -/
structure ReviewRequest where
  action : String
  args : String
  config : ReviewConfig
  description : String
deriving DecidableEq

/-- Running state of one `interrupt_handler` invocation: the accumulated
`result` messages, the `goto` target, the store, plus instrumentation —
every `tool.invoke` call is recorded in `execs` as (name, args), every
`interrupt(...)` suspension in `reviewed`, and a raised exception in
`error` (keeping the side effects already performed before the raise). -/
structure HandlerState where
  result : List Msg
  goto : GraphNode
  store : Store
  execs : List (String × String)
  reviewed : List ReviewRequest
  error : Option String
deriving DecidableEq

/-- The new tool-call list built by the edit branch (lines 344-346):
filter out the call with the edited id, then append the replacement
carrying the proposal's name, the edited args and the same id. -/
def edited_tool_calls (tcs : List ToolCall) (tc : ToolCall) (edited_args : String) :
    List ToolCall :=
  tcs.filter (fun c => c.id != tc.id) ++ [⟨tc.name, edited_args, tc.id⟩]

/-- Shared tail of every memory-updating branch: a failed
`update_memory` raises (recorded in `error`), a successful one installs
the new store. -/
def with_memory_update (s : HandlerState) (r : Except String Store) : HandlerState :=
  match r with
  | .error e => { s with error := some e }
  | .ok store1 => { s with store := store1 }

/-- Branch body of lines 321-450: dispatch on the review decision type
for one reviewable tool call.  `invoke` is the opaque tool executor,
`merge` the opaque profile merge, `lastMsg` is `state["messages"][-1]`
and `stateMessages` is `state["messages"]`.  Note the source has no
final `else`: a decision type outside the four handled ones falls
through silently. -/
def handle_decision (invoke : String → String → String) (merge : MergeFn)
    (lastMsg : Msg) (stateMessages : List Msg) (response : Response)
    (s : HandlerState) (tc : ToolCall) : HandlerState :=
  if response.ty = "accept" then
    let observation := invoke tc.name tc.args
    { s with result := s.result ++ [Msg.tool observation tc.id],
             execs := s.execs ++ [(tc.name, tc.args)] }
  else if response.ty = "edit" then
    let initial_tool_call := tc.args
    let edited_args := response.args
    let current_id := tc.id
    let updated_tool_calls := edited_tool_calls lastMsg.toolCalls tc edited_args
    let s := { s with
      result := s.result ++ [Msg.assistant lastMsg.content updated_tool_calls] }
    if tc.name = "send_email_tool" then
      let observation := invoke tc.name edited_args
      let s := { s with result := s.result ++ [Msg.tool observation current_id],
                        execs := s.execs ++ [(tc.name, edited_args)] }
      with_memory_update s
        (update_memory merge s.store ("email_assistant", "response_preferences")
          [Msg.user ("User edited the email response. Here is the initial email generated by the assistant: " ++ initial_tool_call ++ ". Here is the edited email: " ++ edited_args ++ ". Follow all instructions above, and remember: " ++ MEMORY_UPDATE_INSTRUCTIONS_REINFORCEMENT ++ ".")])
    else if tc.name = "schedule_meeting_tool" then
      let observation := invoke tc.name edited_args
      let s := { s with result := s.result ++ [Msg.tool observation current_id],
                        execs := s.execs ++ [(tc.name, edited_args)] }
      with_memory_update s
        (update_memory merge s.store ("email_assistant", "cal_preferences")
          [Msg.user ("User edited the calendar invitation. Here is the initial calendar invitation generated by the assistant: " ++ initial_tool_call ++ ". Here is the edited calendar invitation: " ++ edited_args ++ ". Follow all instructions above, and remember: " ++ MEMORY_UPDATE_INSTRUCTIONS_REINFORCEMENT ++ ".")])
    else
      { s with error := some ("Invalid tool call: " ++ tc.name) }
  else if response.ty = "ignore" then
    if tc.name = "send_email_tool" then
      let s := { s with
        result := s.result ++
          [Msg.tool "User ignored this email draft. Ignore this email and end the workflow." tc.id],
        goto := GraphNode.end_ }
      with_memory_update s
        (update_memory merge s.store ("email_assistant", "triage_preferences")
          (stateMessages ++ s.result ++ [Msg.user ("The user ignored the email draft. That means they did not want to respond to the email. Update the triage preferences to ensure emails of this type are not classified as respond. Follow all instructions above, and remember: " ++ MEMORY_UPDATE_INSTRUCTIONS_REINFORCEMENT ++ ".")]))
    else if tc.name = "schedule_meeting_tool" then
      let s := { s with
        result := s.result ++
          [Msg.tool "User ignored this calendar meeting draft. Ignore this email and end the workflow." tc.id],
        goto := GraphNode.end_ }
      with_memory_update s
        (update_memory merge s.store ("email_assistant", "triage_preferences")
          (stateMessages ++ s.result ++ [Msg.user ("The user ignored the calendar meeting draft. That means they did not want to schedule a meeting for this email. Update the triage preferences to ensure emails of this type are not classified as respond. Follow all instructions above, and remember: " ++ MEMORY_UPDATE_INSTRUCTIONS_REINFORCEMENT ++ ".")]))
    else if tc.name = "Question" then
      let s := { s with
        result := s.result ++
          [Msg.tool "User ignored this question. Ignore this email and end the workflow." tc.id],
        goto := GraphNode.end_ }
      with_memory_update s
        (update_memory merge s.store ("email_assistant", "triage_preferences")
          (stateMessages ++ s.result ++ [Msg.user ("The user ignored the Question. That means they did not want to answer the question or deal with this email. Update the triage preferences to ensure emails of this type are not classified as respond. Follow all instructions above, and remember: " ++ MEMORY_UPDATE_INSTRUCTIONS_REINFORCEMENT ++ ".")]))
    else
      { s with error := some ("Invalid tool call: " ++ tc.name) }
  else if response.ty = "response" then
    let user_feedback := response.args
    if tc.name = "send_email_tool" then
      let s := { s with
        result := s.result ++
          [Msg.tool ("User gave feedback, which can we incorporate into the email. Feedback: " ++ user_feedback) tc.id] }
      with_memory_update s
        (update_memory merge s.store ("email_assistant", "response_preferences")
          (stateMessages ++ s.result ++ [Msg.user ("User gave feedback, which we can use to update the response preferences. Follow all instructions above, and remember: " ++ MEMORY_UPDATE_INSTRUCTIONS_REINFORCEMENT ++ ".")]))
    else if tc.name = "schedule_meeting_tool" then
      let s := { s with
        result := s.result ++
          [Msg.tool ("User gave feedback, which can we incorporate into the meeting request. Feedback: " ++ user_feedback) tc.id] }
      with_memory_update s
        (update_memory merge s.store ("email_assistant", "cal_preferences")
          (stateMessages ++ s.result ++ [Msg.user ("User gave feedback, which we can use to update the calendar preferences. Follow all instructions above, and remember: " ++ MEMORY_UPDATE_INSTRUCTIONS_REINFORCEMENT ++ ".")]))
    else if tc.name = "Question" then
      { s with
        result := s.result ++
          [Msg.tool ("User answered the question, which can we can use for any follow up actions. Feedback: " ++ user_feedback) tc.id] }
    else
      { s with error := some ("Invalid tool call: " ++ tc.name) }
  else
    s

/-- Body of the per-tool-call loop of `interrupt_handler` (lines
260-450): a name outside `hitl_tools` executes immediately; a reviewable
name builds its capability mask and request, suspends for a decision
(`decide` models the human review channel, `display` the pure
`format_for_display` formatter), then dispatches on the decision. -/
def handle_tool_call (invoke : String → String → String) (merge : MergeFn)
    (decide : ToolCall → Response) (display : ToolCall → String)
    (email_markdown : String) (lastMsg : Msg) (stateMessages : List Msg)
    (s : HandlerState) (tc : ToolCall) : HandlerState :=
  if tc.name ∉ hitl_tools then
    let observation := invoke tc.name tc.args
    { s with result := s.result ++ [Msg.tool observation tc.id],
             execs := s.execs ++ [(tc.name, tc.args)] }
  else
    match review_config tc.name with
    | .error e => { s with error := some e }
    | .ok config =>
      let description := email_markdown ++ display tc
      let s1 := { s with reviewed := s.reviewed ++ [⟨tc.name, tc.args, config, description⟩] }
      handle_decision invoke merge lastMsg stateMessages (decide tc) s1 tc

/-- The `for tool_call in ...` loop: a raised exception (`error` set)
aborts the iteration, keeping effects already performed. -/
def run_tool_calls (invoke : String → String → String) (merge : MergeFn)
    (decide : ToolCall → Response) (display : ToolCall → String)
    (email_markdown : String) (lastMsg : Msg) (stateMessages : List Msg) :
    HandlerState → List ToolCall → HandlerState
  | s, [] => s
  | s, tc :: rest =>
      match s.error with
      | some _ => s
      | none =>
          run_tool_calls invoke merge decide display email_markdown lastMsg stateMessages
            (handle_tool_call invoke merge decide display email_markdown lastMsg
              stateMessages s tc) rest

/-- Initial loop state of `interrupt_handler` (lines 253-257): empty
result, next node `llm_call`. -/
def initial_handler_state (store : Store) : HandlerState :=
  ⟨[], .llm_call, store, [], [], none⟩

/-- Model of `interrupt_handler` (lines 250-457): iterate over the tool
calls of the most recent message (the graph guarantees it is the agent's
assistant message). -/
def interrupt_handler (invoke : String → String → String) (merge : MergeFn)
    (decide : ToolCall → Response) (display : ToolCall → String)
    (email_markdown : String) (stateMessages : List Msg) (store : Store) :
    HandlerState :=
  let lastMsg := stateMessages.getLastD (.user "")
  run_tool_calls invoke merge decide display email_markdown lastMsg stateMessages
    (initial_handler_state store) lastMsg.toolCalls

/-- Model of `should_continue` (lines 460-470).  Both branches of the
source's `for` loop return during its first iteration, so only the head
proposal is ever inspected; with no tool calls the function falls off the
end (Python `None`). -/
def should_continue (stateMessages : List Msg) : Option GraphNode :=
  match (stateMessages.getLastD (.user "")).toolCalls with
  | [] => none
  | tc :: _ =>
      if tc.name = "Done" then some .mark_as_read_node else some .interrupt_handler

/-- C7: the triage step records one of exactly {respond, notify, ignore}
and takes the matching transition, and any other classifier value raises
a fatal error rather than defaulting to one of the three routes. -/
theorem triage_classification_contract (classification email_markdown : String)
    (store : Store) :
    (classification ∉ (["respond", "ignore", "notify"] : List String) →
      triage_router classification email_markdown store =
        .error ("Invalid classification: " ++ classification)) ∧
    triage_router "respond" email_markdown store =
      .ok ⟨.response_agent, "respond",
        [.user ("Respond to the email: " ++ email_markdown)],
        (get_memory store ("email_assistant", "triage_preferences")
          default_triage_instructions).2⟩ ∧
    triage_router "ignore" email_markdown store =
      .ok ⟨.end_, "ignore", [],
        (get_memory store ("email_assistant", "triage_preferences")
          default_triage_instructions).2⟩ ∧
    triage_router "notify" email_markdown store =
      .ok ⟨.triage_interrupt_handler, "notify", [],
        (get_memory store ("email_assistant", "triage_preferences")
          default_triage_instructions).2⟩ := by
  refine ⟨?_, by simp [triage_router], by simp [triage_router], by simp [triage_router]⟩
  intro h
  simp only [List.mem_cons, List.mem_singleton, not_or] at h
  obtain ⟨h1, h2, h3⟩ := h
  simp [triage_router, h1, h2, h3]

/-- Witness for C7: an out-of-contract classification value aborts with
the fatal error on a concrete store. -/
theorem triage_classification_contract_witness :
    triage_router "banana" "md" ⟨[]⟩ = .error "Invalid classification: banana" ∧
    triage_router "notify" "md" ⟨[]⟩ =
      .ok ⟨.triage_interrupt_handler, "notify", [],
        (get_memory ⟨[]⟩ ("email_assistant", "triage_preferences")
          default_triage_instructions).2⟩ := by
  constructor
  · exact (triage_classification_contract "banana" "md" ⟨[]⟩).1 (by decide)
  · exact (triage_classification_contract "notify" "md" ⟨[]⟩).2.2.2

/-- C6 counterexample: on an empty store, an `ignore` classification does
write to the Preference Store — the triage step's `get_memory` call runs
before the classification branch and initializes the triage-preferences
namespace, so the workflow does not reach terminal with zero store
writes. -/
theorem triage_ignore_cex :
    triage_router "ignore" "md" ⟨[]⟩ =
      .ok ⟨.end_, "ignore", [],
        ⟨[⟨("email_assistant", "triage_preferences"), "user_preferences",
          default_triage_instructions⟩]⟩⟩ ∧
    (⟨[⟨("email_assistant", "triage_preferences"), "user_preferences",
      default_triage_instructions⟩]⟩ : Store) ≠ ⟨[]⟩ := by
  exact ⟨by simp [triage_router, get_memory, Store.get, lookupEntry, Store.put], by decide⟩

/-- C6 amended: an `ignore` classification routes straight to terminal
with no messages and no tool execution (the triage embedding performs
none), and the only Preference Store effect is the write-if-absent
initialization of the triage-preferences namespace by `get_memory`; when
that namespace is already present, the store is returned unchanged. -/
theorem triage_ignore_amended (email_markdown : String) (store : Store) :
    triage_router "ignore" email_markdown store =
      .ok ⟨.end_, "ignore", [],
        (get_memory store ("email_assistant", "triage_preferences")
          default_triage_instructions).2⟩ ∧
    ((store.get ("email_assistant", "triage_preferences") "user_preferences").isSome →
      (get_memory store ("email_assistant", "triage_preferences")
        default_triage_instructions).2 = store) := by
  refine ⟨by simp [triage_router], fun h => ?_⟩
  cases hg : store.get ("email_assistant", "triage_preferences") "user_preferences" with
  | none => rw [hg] at h; simp at h
  | some v => simp [get_memory, hg]

/-- Witness for C6 amended: on a store whose triage-preferences
namespace is initialized, `ignore` leaves the store untouched. -/
theorem triage_ignore_amended_witness :
    triage_router "ignore" "md"
        ⟨[⟨("email_assistant", "triage_preferences"), "user_preferences", "p"⟩]⟩ =
      .ok ⟨.end_, "ignore", [],
        (get_memory ⟨[⟨("email_assistant", "triage_preferences"), "user_preferences", "p"⟩]⟩
          ("email_assistant", "triage_preferences") default_triage_instructions).2⟩ ∧
    (get_memory ⟨[⟨("email_assistant", "triage_preferences"), "user_preferences", "p"⟩]⟩
        ("email_assistant", "triage_preferences") default_triage_instructions).2 =
      ⟨[⟨("email_assistant", "triage_preferences"), "user_preferences", "p"⟩]⟩ := by
  have h := triage_ignore_amended "md"
    ⟨[⟨("email_assistant", "triage_preferences"), "user_preferences", "p"⟩]⟩
  exact ⟨h.1, h.2 (by decide)⟩

/-- Witness for C10: on the empty store `update_memory` fails, and after
`get_memory` it succeeds with a full-profile replacement. -/
theorem update_memory_requires_init_witness :
    update_memory (fun _ cur _ => cur ++ "!") ⟨[]⟩
        ("email_assistant", "cal_preferences") [] =
      .error "AttributeError: NoneType object has no attribute value" ∧
    update_memory (fun _ cur _ => cur ++ "!")
        (get_memory ⟨[]⟩ ("email_assistant", "cal_preferences") "cal").2
        ("email_assistant", "cal_preferences") [] =
      .ok (((get_memory ⟨[]⟩ ("email_assistant", "cal_preferences") "cal").2).put
        ("email_assistant", "cal_preferences") "user_preferences" "cal!") := by
  constructor
  · exact (update_memory_requires_init (fun _ cur _ => cur ++ "!") ⟨[]⟩
      ("email_assistant", "cal_preferences") [] "cal").1 (by decide)
  · have h := (update_memory_requires_init (fun _ cur _ => cur ++ "!") ⟨[]⟩
      ("email_assistant", "cal_preferences") [] "cal").2
    obtain ⟨current, hcur, hupd⟩ := h
    have : current = "cal" := by
      have := hcur
      simp [get_memory, Store.get, lookupEntry, Store.put] at this
      exact this.symm
    rw [this] at hupd
    exact hupd

/-- C1 counterexample: a batch whose first proposal is `send_email_tool`
and whose second is `Done` contains a `Done` proposal, yet
`should_continue` routes it to the Review Gate, not to mark-handled —
only the first proposal decides the route. -/
theorem should_continue_done_anywhere_cex :
    should_continue
        [Msg.assistant "" [⟨"send_email_tool", "a", "1"⟩, ⟨"Done", "d", "2"⟩]] =
      some GraphNode.interrupt_handler ∧
    (⟨"Done", "d", "2"⟩ : ToolCall) ∈
      (Msg.assistant "" [⟨"send_email_tool", "a", "1"⟩, ⟨"Done", "d", "2"⟩]).toolCalls ∧
    GraphNode.interrupt_handler ≠ GraphNode.mark_as_read_node := by
  decide

/-- C1 amended: the continuation check inspects only the first proposal
of the most recent assistant message — it routes to mark-handled exactly
when that first proposal is named `Done`, and to the Review Gate
otherwise, regardless of later proposals in the batch. -/
theorem should_continue_first_proposal (pre : List Msg) (c : String) (tc : ToolCall)
    (rest : List ToolCall) :
    should_continue (pre ++ [Msg.assistant c (tc :: rest)]) =
      some (if tc.name = "Done" then GraphNode.mark_as_read_node
        else GraphNode.interrupt_handler) := by
  simp only [should_continue, List.getLastD_concat, Msg.toolCalls]
  split <;> simp_all

/-- C9: applying an edit decision rewrites the assistant message's
proposal list to the same collection of proposals, except that the one
with the edited call id has its arguments replaced (keeping its name and
id) while every other proposal is unchanged — assuming call ids are
unique within the message, as the conversation-state contract
guarantees. -/
theorem edit_preserves_other_proposals (tcs : List ToolCall) (tc : ToolCall)
    (edited_args : String) (htc : tc ∈ tcs) (hnd : (tcs.map ToolCall.id).Nodup) :
    (edited_tool_calls tcs tc edited_args).Perm
      (tcs.map fun c => if c.id = tc.id then ⟨c.name, edited_args, c.id⟩ else c) := by
  induction tcs with
  | nil => cases htc
  | cons hd rest ih =>
      simp only [List.map_cons, List.nodup_cons] at hnd
      obtain ⟨hidnot, hndrest⟩ := hnd
      rcases List.mem_cons.mp htc with heq | hmem
      · subst heq
        have hrest : rest.filter (fun c => c.id != tc.id) = rest := by
          apply List.filter_eq_self.mpr
          intro a ha
          have hne : a.id ≠ tc.id := by
            intro h
            exact hidnot (h ▸ List.mem_map_of_mem ToolCall.id ha)
          simp [hne]
        have hmap : rest.map (fun c => if c.id = tc.id then
            (⟨c.name, edited_args, c.id⟩ : ToolCall) else c) = rest := by
          have := List.map_congr_left (l := rest)
            (f := fun c => if c.id = tc.id then
              (⟨c.name, edited_args, c.id⟩ : ToolCall) else c) (g := id) ?_
          · simpa using this
          · intro a ha
            have hne : a.id ≠ tc.id := by
              intro h
              exact hidnot (h ▸ List.mem_map_of_mem ToolCall.id ha)
            simp [hne]
        simp only [edited_tool_calls, List.filter_cons, bne_self_eq_false,
          Bool.false_eq_true, if_false, hrest, List.map_cons, if_pos rfl, hmap]
        exact List.perm_append_singleton _ _
      · have hne : hd.id ≠ tc.id := by
          intro h
          exact hidnot (h ▸ List.mem_map_of_mem ToolCall.id hmem)
        have hfilter : (hd :: rest).filter (fun c => c.id != tc.id) =
            hd :: rest.filter (fun c => c.id != tc.id) := by
          simp [List.filter_cons, hne]
        simp only [edited_tool_calls] at ih ⊢
        rw [hfilter]
        simp only [List.map_cons, if_neg hne, List.cons_append]
        exact List.Perm.cons hd (ih hmem hndrest)

/-- Witness for C9: a concrete two-proposal message edited at the first
proposal. -/
theorem edit_preserves_other_proposals_witness :
    (edited_tool_calls [⟨"send_email_tool", "a", "1"⟩, ⟨"Question", "q", "2"⟩]
        ⟨"send_email_tool", "a", "1"⟩ "a2").Perm
      (([⟨"send_email_tool", "a", "1"⟩, ⟨"Question", "q", "2"⟩] : List ToolCall).map
        fun c => if c.id = "1" then ⟨c.name, "a2", c.id⟩ else c) := by
  exact edit_preserves_other_proposals _ _ "a2" (by decide) (by decide)

/-- Projection facts for `with_memory_update`. -/
@[simp] theorem with_memory_update_reviewed (s : HandlerState) (r : Except String Store) :
    (with_memory_update s r).reviewed = s.reviewed := by
  cases r <;> rfl

@[simp] theorem with_memory_update_goto (s : HandlerState) (r : Except String Store) :
    (with_memory_update s r).goto = s.goto := by
  cases r <;> rfl

@[simp] theorem with_memory_update_execs (s : HandlerState) (r : Except String Store) :
    (with_memory_update s r).execs = s.execs := by
  cases r <;> rfl

@[simp] theorem with_memory_update_result (s : HandlerState) (r : Except String Store) :
    (with_memory_update s r).result = s.result := by
  cases r <;> rfl

/-- Decision dispatch never touches the `reviewed` log. -/
theorem handle_decision_reviewed (invoke : String → String → String) (merge : MergeFn)
    (lastMsg : Msg) (stateMessages : List Msg) (response : Response)
    (s : HandlerState) (tc : ToolCall) :
    (handle_decision invoke merge lastMsg stateMessages response s tc).reviewed =
      s.reviewed := by
  simp only [handle_decision]
  (repeat' split) <;> first | rfl | simp

/-- Decision dispatch either keeps the route or sets it to terminal. -/
theorem handle_decision_goto (invoke : String → String → String) (merge : MergeFn)
    (lastMsg : Msg) (stateMessages : List Msg) (response : Response)
    (s : HandlerState) (tc : ToolCall) :
    (handle_decision invoke merge lastMsg stateMessages response s tc).goto = s.goto ∨
      (handle_decision invoke merge lastMsg stateMessages response s tc).goto =
        GraphNode.end_ := by
  simp only [handle_decision]
  (repeat' split) <;> first | rfl | simp

/-- A decision other than ignore never changes the route. -/
theorem handle_decision_goto_of_ne_ignore (invoke : String → String → String)
    (merge : MergeFn) (lastMsg : Msg) (stateMessages : List Msg) (response : Response)
    (s : HandlerState) (tc : ToolCall) (hty : response.ty ≠ "ignore") :
    (handle_decision invoke merge lastMsg stateMessages response s tc).goto = s.goto := by
  simp only [handle_decision]
  (repeat' split) <;> first | rfl | simp

/-- An ignore decision on a reviewable tool always sets the route to
terminal, even when the subsequent memory update fails. -/
theorem handle_decision_goto_ignore (invoke : String → String → String)
    (merge : MergeFn) (lastMsg : Msg) (stateMessages : List Msg) (response : Response)
    (s : HandlerState) (tc : ToolCall) (hty : response.ty = "ignore")
    (hname : tc.name ∈ hitl_tools) :
    (handle_decision invoke merge lastMsg stateMessages response s tc).goto =
      GraphNode.end_ := by
  simp only [hitl_tools, List.mem_cons, List.mem_singleton, List.not_mem_nil,
    or_false] at hname
  rcases hname with h | h | h <;> simp [handle_decision, hty, h]

/-- A decision type outside the four handled ones falls through the
dispatch silently, leaving the state untouched. -/
theorem handle_decision_unknown (invoke : String → String → String) (merge : MergeFn)
    (lastMsg : Msg) (stateMessages : List Msg) (response : Response)
    (s : HandlerState) (tc : ToolCall) (h1 : response.ty ≠ "accept")
    (h2 : response.ty ≠ "edit") (h3 : response.ty ≠ "ignore")
    (h4 : response.ty ≠ "response") :
    handle_decision invoke merge lastMsg stateMessages response s tc = s := by
  simp [handle_decision, h1, h2, h3, h4]

/-- Every review request recorded by one loop step either was already
recorded or names a reviewable tool. -/
theorem handle_tool_call_reviewed_hitl (invoke : String → String → String)
    (merge : MergeFn) (decide : ToolCall → Response) (display : ToolCall → String)
    (email_markdown : String) (lastMsg : Msg) (stateMessages : List Msg)
    (s : HandlerState) (tc : ToolCall) (x : ReviewRequest)
    (hx : x ∈ (handle_tool_call invoke merge decide display email_markdown lastMsg
      stateMessages s tc).reviewed) :
    x ∈ s.reviewed ∨ x.action ∈ hitl_tools := by
  by_cases hm : tc.name ∈ hitl_tools
  · simp only [handle_tool_call, hm, not_true_eq_false, if_false] at hx
    rcases hcfg : review_config tc.name with e | cfg <;> rw [hcfg] at hx
    · exact Or.inl hx
    · rw [handle_decision_reviewed] at hx
      simp only [List.mem_append, List.mem_singleton] at hx
      rcases hx with h | h
      · exact Or.inl h
      · subst h
        exact Or.inr hm
  · simp only [handle_tool_call, hm, not_false_eq_true, if_true] at hx
    exact Or.inl hx

/-- One loop step either keeps the route or sets it to terminal. -/
theorem handle_tool_call_goto (invoke : String → String → String) (merge : MergeFn)
    (decide : ToolCall → Response) (display : ToolCall → String)
    (email_markdown : String) (lastMsg : Msg) (stateMessages : List Msg)
    (s : HandlerState) (tc : ToolCall) :
    (handle_tool_call invoke merge decide display email_markdown lastMsg stateMessages
        s tc).goto = s.goto ∨
      (handle_tool_call invoke merge decide display email_markdown lastMsg stateMessages
        s tc).goto = GraphNode.end_ := by
  by_cases hm : tc.name ∈ hitl_tools
  · simp only [handle_tool_call, hm, not_true_eq_false, if_false]
    rcases hcfg : review_config tc.name with e | cfg
    · exact Or.inl rfl
    · exact handle_decision_goto invoke merge lastMsg stateMessages (decide tc) _ tc
  · exact Or.inl (by simp [handle_tool_call, hm])

/-- One loop step keeps the route unless it delivers an ignore decision
on a reviewable tool. -/
theorem handle_tool_call_goto_of_not_ignored (invoke : String → String → String)
    (merge : MergeFn) (decide : ToolCall → Response) (display : ToolCall → String)
    (email_markdown : String) (lastMsg : Msg) (stateMessages : List Msg)
    (s : HandlerState) (tc : ToolCall)
    (h : ¬(tc.name ∈ hitl_tools ∧ (decide tc).ty = "ignore")) :
    (handle_tool_call invoke merge decide display email_markdown lastMsg stateMessages
        s tc).goto = s.goto := by
  by_cases hm : tc.name ∈ hitl_tools
  · have hty : (decide tc).ty ≠ "ignore" := fun hty => h ⟨hm, hty⟩
    simp only [handle_tool_call, hm, not_true_eq_false, if_false]
    rcases hcfg : review_config tc.name with e | cfg
    · rfl
    · exact handle_decision_goto_of_ne_ignore invoke merge lastMsg stateMessages
        (decide tc) _ tc hty
  · simp only [handle_tool_call, hm, not_false_eq_true, if_true]

/-- An ignore decision on a reviewable tool sets the route to terminal. -/
theorem handle_tool_call_goto_of_ignored (invoke : String → String → String)
    (merge : MergeFn) (decide : ToolCall → Response) (display : ToolCall → String)
    (email_markdown : String) (lastMsg : Msg) (stateMessages : List Msg)
    (s : HandlerState) (tc : ToolCall) (hm : tc.name ∈ hitl_tools)
    (hty : (decide tc).ty = "ignore") :
    (handle_tool_call invoke merge decide display email_markdown lastMsg stateMessages
        s tc).goto = GraphNode.end_ := by
  simp only [handle_tool_call, hm, not_true_eq_false, if_false]
  rcases hcfg : review_config tc.name with e | cfg
  · exfalso
    simp only [hitl_tools, List.mem_cons, List.mem_singleton, List.not_mem_nil,
      or_false] at hm
    rcases hm with h | h | h <;> simp [review_config, h] at hcfg
  · exact handle_decision_goto_ignore invoke merge lastMsg stateMessages
      (decide tc) _ tc hty hm

/-- The loop aborts as soon as an exception is recorded, so a run that
ends without error never raised one at an intermediate step. -/
theorem run_tool_calls_error_of_step (invoke : String → String → String)
    (merge : MergeFn) (decide : ToolCall → Response) (display : ToolCall → String)
    (email_markdown : String) (lastMsg : Msg) (stateMessages : List Msg)
    (s : HandlerState) (tcs : List ToolCall) (he : s.error.isSome) :
    run_tool_calls invoke merge decide display email_markdown lastMsg stateMessages
      s tcs = s := by
  cases tcs with
  | nil => rfl
  | cons tc rest =>
      rcases h : s.error with _ | e
      · rw [h] at he
        cases he
      · simp [run_tool_calls, h]

/-- Route of a completed (error-free) loop run: it ends at terminal
exactly when it started there or some proposal in the batch is a
reviewable tool that received an ignore decision. -/
theorem run_tool_calls_goto_iff (invoke : String → String → String) (merge : MergeFn)
    (decide : ToolCall → Response) (display : ToolCall → String)
    (email_markdown : String) (lastMsg : Msg) (stateMessages : List Msg)
    (s : HandlerState) (tcs : List ToolCall)
    (herr : (run_tool_calls invoke merge decide display email_markdown lastMsg
      stateMessages s tcs).error = none) :
    (run_tool_calls invoke merge decide display email_markdown lastMsg stateMessages
        s tcs).goto = GraphNode.end_ ↔
      (s.goto = GraphNode.end_ ∨
        ∃ tc ∈ tcs, tc.name ∈ hitl_tools ∧ (decide tc).ty = "ignore") := by
  induction tcs generalizing s with
  | nil => simp [run_tool_calls]
  | cons tc rest ih =>
      rcases h : s.error with _ | e
      · rw [run_tool_calls, h]
        rw [run_tool_calls, h] at herr
        by_cases hP : tc.name ∈ hitl_tools ∧ (decide tc).ty = "ignore"
        · have hend := handle_tool_call_goto_of_ignored invoke merge decide display
            email_markdown lastMsg stateMessages s tc hP.1 hP.2
          rw [ih _ herr, hend]
          constructor
          · intro _
            exact Or.inr ⟨tc, List.mem_cons_self tc rest, hP⟩
          · intro _
            exact Or.inl rfl
        · have hkeep := handle_tool_call_goto_of_not_ignored invoke merge decide display
            email_markdown lastMsg stateMessages s tc hP
          rw [ih _ herr, hkeep]
          constructor
          · rintro (hg | ⟨x, hx, hx2⟩)
            · exact Or.inl hg
            · exact Or.inr ⟨x, List.mem_cons_of_mem tc hx, hx2⟩
          · rintro (hg | ⟨x, hx, hx2⟩)
            · exact Or.inl hg
            · rcases List.mem_cons.mp hx with hx' | hx'
              · exact absurd (hx' ▸ hx2) hP
              · exact Or.inr ⟨x, hx', hx2⟩
      · rw [run_tool_calls, h] at herr ⊢
        rw [herr] at h
        cases h

/-- Every review request recorded by a loop run either predates the run
or names a reviewable tool. -/
theorem run_tool_calls_reviewed_hitl (invoke : String → String → String)
    (merge : MergeFn) (decide : ToolCall → Response) (display : ToolCall → String)
    (email_markdown : String) (lastMsg : Msg) (stateMessages : List Msg)
    (s : HandlerState) (tcs : List ToolCall) (x : ReviewRequest)
    (hx : x ∈ (run_tool_calls invoke merge decide display email_markdown lastMsg
      stateMessages s tcs).reviewed) :
    x ∈ s.reviewed ∨ x.action ∈ hitl_tools := by
  induction tcs generalizing s with
  | nil => exact Or.inl hx
  | cons tc rest ih =>
      rw [run_tool_calls] at hx
      rcases h : s.error with _ | e
      · rw [h] at hx
        rcases ih _ hx with h' | h'
        · exact handle_tool_call_reviewed_hitl invoke merge decide display
            email_markdown lastMsg stateMessages s tc x h'
        · exact Or.inr h'
      · rw [h] at hx
        exact Or.inl hx

/-- C2 counterexample: in a batch whose first proposal is
`send_email_tool` and whose second is `Done`, the loop-continuation
check sends the whole batch to the Review Gate, and the gate then
executes the `Done` proposal directly as a non-reviewable tool — so
`Done` is not execution-free in every reachable batch shape. -/
theorem done_executed_cex :
    ("Done", "d") ∈ (interrupt_handler (fun n _ => n) (fun _ c _ => c)
      (fun _ => ⟨"accept", ""⟩) (fun _ => "") "md"
      [Msg.assistant "" [⟨"send_email_tool", "a", "1"⟩, ⟨"Done", "d", "2"⟩]]
      ⟨[]⟩).execs ∧
    should_continue
        [Msg.assistant "" [⟨"send_email_tool", "a", "1"⟩, ⟨"Done", "d", "2"⟩]] ≠
      some GraphNode.mark_as_read_node := by
  decide

/-- C2 amended: a `Done` proposal is never surfaced for human review
(no recorded review request names it); when `Done` is the batch's first
proposal the continuation check routes to mark-handled without entering
the Review Gate; but a `Done` proposal inside a batch whose first
proposal is not `Done` reaches the Review Gate, which executes it
directly as a non-reviewable tool call. -/
theorem done_never_reviewed_amended :
    (∀ (pre : List Msg) (c args cid : String) (rest : List ToolCall),
      should_continue (pre ++ [Msg.assistant c (⟨"Done", args, cid⟩ :: rest)]) =
        some GraphNode.mark_as_read_node) ∧
    (∀ (invoke : String → String → String) (merge : MergeFn)
      (decide : ToolCall → Response) (display : ToolCall → String)
      (email_markdown : String) (stateMessages : List Msg) (store : Store)
      (x : ReviewRequest),
      x ∈ (interrupt_handler invoke merge decide display email_markdown
        stateMessages store).reviewed → x.action ≠ "Done") ∧
    (∀ (invoke : String → String → String) (merge : MergeFn)
      (decide : ToolCall → Response) (display : ToolCall → String)
      (email_markdown : String) (lastMsg : Msg) (stateMessages : List Msg)
      (s : HandlerState) (tc : ToolCall), tc.name = "Done" →
      handle_tool_call invoke merge decide display email_markdown lastMsg
          stateMessages s tc =
        { s with result := s.result ++ [Msg.tool (invoke "Done" tc.args) tc.id],
                 execs := s.execs ++ [("Done", tc.args)] }) := by
  refine ⟨?_, ?_, ?_⟩
  · intro pre c args cid rest
    simp [should_continue, List.getLastD_concat, Msg.toolCalls]
  · intro invoke merge decide display email_markdown stateMessages store x hx
    rcases run_tool_calls_reviewed_hitl invoke merge decide display email_markdown
      _ stateMessages _ _ x hx with h | h
    · simp [initial_handler_state] at h
    · intro hdone
      rw [hdone] at h
      simp [hitl_tools] at h
  · intro invoke merge decide display email_markdown lastMsg stateMessages s tc h
    have hmem : tc.name ∉ hitl_tools := by
      rw [h]
      decide
    simp [handle_tool_call, hmem, h]
    intro hc
    exact absurd hc (by decide)

/-- Witness for C2 amended: concrete instances of all three conjuncts. -/
theorem done_never_reviewed_amended_witness :
    should_continue [Msg.assistant "" [⟨"Done", "d", "1"⟩]] =
      some GraphNode.mark_as_read_node ∧
    (⟨"send_email_tool", "a", ⟨true, true, true, true⟩, "md"⟩ : ReviewRequest).action ≠
      "Done" ∧
    handle_tool_call (fun n _ => n) (fun _ c _ => c) (fun _ => ⟨"accept", ""⟩)
        (fun _ => "") "md" (Msg.user "") [] (initial_handler_state ⟨[]⟩)
        ⟨"Done", "d", "2"⟩ =
      { initial_handler_state ⟨[]⟩ with
          result := [Msg.tool "Done" "2"],
          execs := [("Done", "d")] } := by
  refine ⟨?_, ?_, ?_⟩
  · exact done_never_reviewed_amended.1 [] "" "d" "1" []
  · exact done_never_reviewed_amended.2.1 (fun n _ => n) (fun _ c _ => c)
      (fun _ => ⟨"accept", ""⟩) (fun _ => "") "md"
      [Msg.assistant "" [⟨"send_email_tool", "a", "1"⟩]] ⟨[]⟩ _ (by decide)
  · exact done_never_reviewed_amended.2.2 (fun n _ => n) (fun _ c _ => c)
      (fun _ => ⟨"accept", ""⟩) (fun _ => "") "md" (Msg.user "") []
      (initial_handler_state ⟨[]⟩) ⟨"Done", "d", "2"⟩ rfl


/-- Executions performed by the decision dispatch: accept executes the
original arguments, edit executes the edited arguments on the two
memory-backed tools (and nothing on an edit that raises), all other
decision types execute nothing. -/
theorem handle_decision_execs (invoke : String → String → String) (merge : MergeFn)
    (lastMsg : Msg) (stateMessages : List Msg) (response : Response)
    (s : HandlerState) (tc : ToolCall) :
    (handle_decision invoke merge lastMsg stateMessages response s tc).execs =
      s.execs ++
        (if response.ty = "accept" then [(tc.name, tc.args)]
         else if response.ty = "edit" ∧ (tc.name = "send_email_tool" ∨
            tc.name = "schedule_meeting_tool") then [(tc.name, response.args)]
         else []) := by
  simp only [handle_decision]
  (repeat' split) <;> (try simp) <;> (try simp_all)

/-- An edit decision on a Question proposal hits the edit dispatch's
final else: nothing is executed and a fatal invalid-tool-call error is
raised (after the rewritten assistant message was already appended). -/
theorem handle_decision_edit_question (invoke : String → String → String)
    (merge : MergeFn) (lastMsg : Msg) (stateMessages : List Msg) (response : Response)
    (s : HandlerState) (tc : ToolCall) (hty : response.ty = "edit")
    (hq : tc.name = "Question") :
    (handle_decision invoke merge lastMsg stateMessages response s tc).execs =
        s.execs ∧
      (handle_decision invoke merge lastMsg stateMessages response s tc).error =
        some ("Invalid tool call: " ++ tc.name) := by
  obtain ⟨ty, targs⟩ := response
  obtain rfl : ty = "edit" := hty
  constructor <;> simp [handle_decision, hq]

/-- C3 counterexample: an edit decision on a reviewable Question
proposal does not execute the edited arguments once — it executes
nothing and the Review Gate raises a fatal invalid-tool-call error
instead, falsifying the claim for this human decision. -/
theorem review_decision_executes_once_cex :
    (interrupt_handler (fun n _ => n) (fun _ c _ => c) (fun _ => ⟨"edit", "x"⟩)
      (fun _ => "") "md" [Msg.assistant "" [⟨"Question", "q", "1"⟩]] ⟨[]⟩).execs =
      [] ∧
    (interrupt_handler (fun n _ => n) (fun _ c _ => c) (fun _ => ⟨"edit", "x"⟩)
      (fun _ => "") "md" [Msg.assistant "" [⟨"Question", "q", "1"⟩]] ⟨[]⟩).error =
      some "Invalid tool call: Question" ∧
    ((fun _ : ToolCall => (⟨"edit", "x"⟩ : Response)) ⟨"Question", "q", "1"⟩).ty =
      "edit" := by
  decide

/-- C3 amended: for a reviewable proposal and a decision inside the
action's advertised capability mask, the Review Gate performs exactly
the execution the decision calls for — accept executes the original
arguments once, edit executes the edited arguments once, respond and
ignore execute nothing — and never invokes the tool twice for one
proposal; an edit decision on a Question proposal, which its mask
disallows, executes nothing and raises a fatal invalid-tool-call error
instead. -/
theorem review_decision_executes_once (invoke : String → String → String)
    (merge : MergeFn) (decide : ToolCall → Response) (display : ToolCall → String)
    (email_markdown : String) (lastMsg : Msg) (stateMessages : List Msg)
    (s : HandlerState) (tc : ToolCall) (cfg : ReviewConfig) :
    (review_config tc.name = .ok cfg →
      decision_allowed cfg (decide tc).ty = true →
      (handle_tool_call invoke merge decide display email_markdown lastMsg
          stateMessages s tc).execs =
        s.execs ++
          (if (decide tc).ty = "accept" then [(tc.name, tc.args)]
           else if (decide tc).ty = "edit" then [(tc.name, (decide tc).args)]
           else [])) ∧
    (tc.name = "Question" → (decide tc).ty = "edit" →
      (handle_tool_call invoke merge decide display email_markdown lastMsg
          stateMessages s tc).execs = s.execs ∧
      (handle_tool_call invoke merge decide display email_markdown lastMsg
          stateMessages s tc).error = some ("Invalid tool call: " ++ tc.name)) := by
  constructor
  · intro hcfg hallow
    have hname : tc.name = "send_email_tool" ∨ tc.name = "schedule_meeting_tool" ∨
        tc.name = "Question" := by
      by_contra hn
      push_neg at hn
      simp [review_config, hn.1, hn.2.1, hn.2.2] at hcfg
    have hmem : tc.name ∈ hitl_tools := by
      rcases hname with h | h | h <;> simp [hitl_tools, h]
    have hstep : (handle_tool_call invoke merge decide display email_markdown lastMsg
        stateMessages s tc).execs =
        s.execs ++
          (if (decide tc).ty = "accept" then [(tc.name, tc.args)]
           else if (decide tc).ty = "edit" ∧ (tc.name = "send_email_tool" ∨
              tc.name = "schedule_meeting_tool") then [(tc.name, (decide tc).args)]
           else []) := by
      simp only [handle_tool_call, hmem, not_true_eq_false, if_false, hcfg]
      rw [handle_decision_execs]
    rw [hstep]
    rcases hname with h | h | h
    · rcases (by simp [review_config, h] at hcfg; exact hcfg.symm :
          cfg = ⟨true, true, true, true⟩) with rfl
      simp [h]
    · rcases (by simp [review_config, h] at hcfg; exact hcfg.symm :
          cfg = ⟨true, true, true, true⟩) with rfl
      simp [h]
    · rcases (by simp [review_config, h] at hcfg; exact hcfg.symm :
          cfg = ⟨true, true, false, false⟩) with rfl
      simp only [decision_allowed, Bool.and_true, Bool.and_false, Bool.or_eq_true,
        Bool.false_eq_true, or_false, false_or, beq_iff_eq] at hallow
      rcases hallow with hty | hty <;> simp [hty, h]
  · intro hq hty
    have hmem : tc.name ∈ hitl_tools := by
      rw [hq]
      decide
    have hcfg2 : review_config tc.name = .ok ⟨true, true, false, false⟩ := by
      simp [review_config, hq]
    simp only [handle_tool_call, hmem, not_true_eq_false, if_false, hcfg2]
    exact handle_decision_edit_question invoke merge lastMsg stateMessages
      (decide tc) _ tc hty hq

/-- Witness for C3 amended: an accepted send executes once with the
original arguments, a respond decision on a Question executes nothing,
and an edit decision on a Question raises the fatal error. -/
theorem review_decision_executes_once_witness :
    (handle_tool_call (fun n _ => n) (fun _ c _ => c) (fun _ => ⟨"accept", ""⟩)
        (fun _ => "") "md" (Msg.user "") [] (initial_handler_state ⟨[]⟩)
        ⟨"send_email_tool", "a", "1"⟩).execs = [("send_email_tool", "a")] ∧
    (handle_tool_call (fun n _ => n) (fun _ c _ => c) (fun _ => ⟨"response", "fb"⟩)
        (fun _ => "") "md" (Msg.user "") [] (initial_handler_state ⟨[]⟩)
        ⟨"Question", "q", "2"⟩).execs = [] ∧
    (handle_tool_call (fun n _ => n) (fun _ c _ => c) (fun _ => ⟨"edit", "x"⟩)
        (fun _ => "") "md" (Msg.user "") [] (initial_handler_state ⟨[]⟩)
        ⟨"Question", "q", "3"⟩).error = some "Invalid tool call: Question" := by
  refine ⟨?_, ?_, ?_⟩
  · have h := (review_decision_executes_once (fun n _ => n) (fun _ c _ => c)
      (fun _ => ⟨"accept", ""⟩) (fun _ => "") "md" (Msg.user "") []
      (initial_handler_state ⟨[]⟩) ⟨"send_email_tool", "a", "1"⟩
      ⟨true, true, true, true⟩).1 (by simp [review_config]) (by simp [decision_allowed])
    simpa using h
  · have h := (review_decision_executes_once (fun n _ => n) (fun _ c _ => c)
      (fun _ => ⟨"response", "fb"⟩) (fun _ => "") "md" (Msg.user "") []
      (initial_handler_state ⟨[]⟩) ⟨"Question", "q", "2"⟩
      ⟨true, true, false, false⟩).1 (by simp [review_config]) (by simp [decision_allowed])
    simpa using h
  · have h := (review_decision_executes_once (fun n _ => n) (fun _ c _ => c)
      (fun _ => ⟨"edit", "x"⟩) (fun _ => "") "md" (Msg.user "") []
      (initial_handler_state ⟨[]⟩) ⟨"Question", "q", "3"⟩
      ⟨true, true, false, false⟩).2 rfl rfl
    simpa using h.2

/-- C4 counterexample: a decision of unknown type "foo" on a reviewable
send proposal does not abort the Review Gate — no error is recorded, the
proposal is silently skipped (no message, no execution) and the loop
continues to the Action Agent. -/
theorem review_decision_validation_cex :
    (interrupt_handler (fun n _ => n) (fun _ c _ => c) (fun _ => ⟨"foo", "x"⟩)
      (fun _ => "") "md" [Msg.assistant "" [⟨"send_email_tool", "a", "1"⟩]]
      ⟨[]⟩).error = none ∧
    (interrupt_handler (fun n _ => n) (fun _ c _ => c) (fun _ => ⟨"foo", "x"⟩)
      (fun _ => "") "md" [Msg.assistant "" [⟨"send_email_tool", "a", "1"⟩]]
      ⟨[]⟩).result = [] ∧
    (interrupt_handler (fun n _ => n) (fun _ c _ => c) (fun _ => ⟨"foo", "x"⟩)
      (fun _ => "") "md" [Msg.assistant "" [⟨"send_email_tool", "a", "1"⟩]]
      ⟨[]⟩).execs = [] ∧
    (interrupt_handler (fun n _ => n) (fun _ c _ => c) (fun _ => ⟨"foo", "x"⟩)
      (fun _ => "") "md" [Msg.assistant "" [⟨"send_email_tool", "a", "1"⟩]]
      ⟨[]⟩).goto = GraphNode.llm_call := by
  decide

/-- C4 amended: at the notify-stage review, a decision outside
{respond, ignore} raises a fatal error; at the tool-call Review Gate,
however, a decision kind outside {accept, edit, respond, ignore} is
silently skipped — the request is surfaced but no execution, message,
route change or error results, and the loop continues. -/
theorem review_decision_validation (invoke : String → String → String)
    (merge : MergeFn) (decide : ToolCall → Response) (display : ToolCall → String)
    (email_markdown : String) (lastMsg : Msg) (stateMessages : List Msg)
    (s : HandlerState) (tc : ToolCall) (cfg : ReviewConfig) (response : Response)
    (store : Store) :
    (review_config tc.name = .ok cfg →
      (decide tc).ty ∉ (["accept", "edit", "ignore", "response"] : List String) →
      handle_tool_call invoke merge decide display email_markdown lastMsg stateMessages
          s tc =
        { s with reviewed := s.reviewed ++
            [⟨tc.name, tc.args, cfg, email_markdown ++ display tc⟩] }) ∧
    (response.ty ∉ (["response", "ignore"] : List String) →
      triage_interrupt_handler merge email_markdown response store =
        .error ("Invalid response: " ++ response.ty)) := by
  constructor
  · intro hcfg hty
    have hmem : tc.name ∈ hitl_tools := by
      by_contra hn
      have hname : tc.name ≠ "send_email_tool" ∧ tc.name ≠ "schedule_meeting_tool" ∧
          tc.name ≠ "Question" := by
        simpa [hitl_tools, not_or] using hn
      simp [review_config, hname.1, hname.2.1, hname.2.2] at hcfg
    simp only [List.mem_cons, List.mem_singleton, List.not_mem_nil, or_false,
      not_or] at hty
    obtain ⟨h1, h2, h3, h4⟩ := hty
    simp only [handle_tool_call, hmem, not_true_eq_false, if_false, hcfg]
    rw [handle_decision_unknown invoke merge lastMsg stateMessages (decide tc) _ tc
      h1 h2 h3 h4]
  · intro hty
    simp only [List.mem_cons, List.mem_singleton, List.not_mem_nil, or_false,
      not_or] at hty
    simp [triage_interrupt_handler, hty.1, hty.2]

/-- Witness for C4 amended: concrete unknown decision at the gate and a
disallowed accept at the notify review. -/
theorem review_decision_validation_witness :
    handle_tool_call (fun n _ => n) (fun _ c _ => c) (fun _ => ⟨"foo", "x"⟩)
        (fun _ => "") "md" (Msg.user "") [] (initial_handler_state ⟨[]⟩)
        ⟨"send_email_tool", "a", "1"⟩ =
      { initial_handler_state ⟨[]⟩ with
          reviewed := [⟨"send_email_tool", "a", ⟨true, true, true, true⟩, "md"⟩] } ∧
    triage_interrupt_handler (fun _ c _ => c) "md" ⟨"accept", ""⟩ ⟨[]⟩ =
      .error "Invalid response: accept" := by
  constructor
  · have h := (review_decision_validation (fun n _ => n) (fun _ c _ => c)
      (fun _ => ⟨"foo", "x"⟩) (fun _ => "") "md" (Msg.user "") []
      (initial_handler_state ⟨[]⟩) ⟨"send_email_tool", "a", "1"⟩
      ⟨true, true, true, true⟩ ⟨"accept", ""⟩ ⟨[]⟩).1
      (by simp [review_config]) (by decide)
    simpa using h
  · exact (review_decision_validation (fun n _ => n) (fun _ c _ => c)
      (fun _ => ⟨"foo", "x"⟩) (fun _ => "") "md" (Msg.user "") []
      (initial_handler_state ⟨[]⟩) ⟨"send_email_tool", "a", "1"⟩
      ⟨true, true, true, true⟩ ⟨"accept", ""⟩ ⟨[]⟩).2 (by decide)

/-- The per-tool prefix of the feedback tool-result message appended by
the respond branch (the three f-string literals of lines 429, 438 and
447, each followed by the verbatim feedback text). -/
def respond_feedback_lead (name : String) : String :=
  if name = "send_email_tool" then
    "User gave feedback, which can we incorporate into the email. Feedback: "
  else if name = "schedule_meeting_tool" then
    "User gave feedback, which can we incorporate into the meeting request. Feedback: "
  else
    "User answered the question, which can we can use for any follow up actions. Feedback: "

/-- A respond (free-text feedback) decision never executes the tool,
never changes the route, and appends exactly one tool-result message
answering the proposal's call id whose content carries the feedback
text verbatim. -/
theorem handle_decision_respond_frame (invoke : String → String → String)
    (merge : MergeFn) (lastMsg : Msg) (stateMessages : List Msg) (response : Response)
    (s : HandlerState) (tc : ToolCall) (hty : response.ty = "response")
    (hmem : tc.name ∈ hitl_tools) :
    (handle_decision invoke merge lastMsg stateMessages response s tc).execs =
        s.execs ∧
      (handle_decision invoke merge lastMsg stateMessages response s tc).goto =
        s.goto ∧
      (handle_decision invoke merge lastMsg stateMessages response s tc).result =
        s.result ++
          [Msg.tool (respond_feedback_lead tc.name ++ response.args) tc.id] := by
  obtain ⟨ty, targs⟩ := response
  obtain rfl : ty = "response" := hty
  simp only [hitl_tools, List.mem_cons, List.mem_singleton, List.not_mem_nil,
    or_false] at hmem
  rcases hmem with h | h | h <;>
    exact ⟨by simp [handle_decision, h], by simp [handle_decision, h],
      by simp [handle_decision, respond_feedback_lead, h]⟩

/-- C5 counterexample: in a batch whose first send proposal receives an
ignore decision and whose second receives a respond (feedback) decision,
the Review Gate completes without error, appends the feedback message,
executes nothing — and still routes to terminal, because the ignore
decision on the other proposal already set the route and the respond
branch never resets it. -/
theorem respond_routes_cex :
    (interrupt_handler (fun n _ => n) (fun _ c _ => c)
      (fun tc => if tc.id = "1" then ⟨"ignore", ""⟩ else ⟨"response", "fb"⟩)
      (fun _ => "") "md"
      [Msg.assistant "" [⟨"send_email_tool", "a", "1"⟩, ⟨"send_email_tool", "b", "2"⟩]]
      ⟨[⟨("email_assistant", "triage_preferences"), "user_preferences", "t"⟩,
        ⟨("email_assistant", "response_preferences"), "user_preferences", "r"⟩]⟩).error =
      none ∧
    ((fun tc : ToolCall => if tc.id = "1" then (⟨"ignore", ""⟩ : Response)
      else ⟨"response", "fb"⟩) ⟨"send_email_tool", "b", "2"⟩).ty = "response" ∧
    (interrupt_handler (fun n _ => n) (fun _ c _ => c)
      (fun tc => if tc.id = "1" then ⟨"ignore", ""⟩ else ⟨"response", "fb"⟩)
      (fun _ => "") "md"
      [Msg.assistant "" [⟨"send_email_tool", "a", "1"⟩, ⟨"send_email_tool", "b", "2"⟩]]
      ⟨[⟨("email_assistant", "triage_preferences"), "user_preferences", "t"⟩,
        ⟨("email_assistant", "response_preferences"), "user_preferences", "r"⟩]⟩).goto =
      GraphNode.end_ := by
  decide

/-- C5 amended: a respond decision on a reviewable proposal executes
nothing, appends a tool-result message whose content carries the
feedback text verbatim, and by itself never changes the route; the
Review Gate's next route is the Action Agent unless some proposal of
the same batch received an ignore decision, in which case the route is
terminal. -/
theorem respond_routes_amended (invoke : String → String → String) (merge : MergeFn)
    (decide : ToolCall → Response) (display : ToolCall → String)
    (email_markdown : String) (lastMsg : Msg) (stateMessages : List Msg)
    (s : HandlerState) (tc : ToolCall) (store : Store) :
    (tc.name ∈ hitl_tools → (decide tc).ty = "response" →
      (handle_tool_call invoke merge decide display email_markdown lastMsg
          stateMessages s tc).execs = s.execs ∧
      (handle_tool_call invoke merge decide display email_markdown lastMsg
          stateMessages s tc).goto = s.goto ∧
      (handle_tool_call invoke merge decide display email_markdown lastMsg
          stateMessages s tc).result =
        s.result ++
          [Msg.tool (respond_feedback_lead tc.name ++ (decide tc).args) tc.id]) ∧
    ((interrupt_handler invoke merge decide display email_markdown stateMessages
        store).error = none →
      ((interrupt_handler invoke merge decide display email_markdown stateMessages
          store).goto = GraphNode.end_ ↔
        ∃ tc2 ∈ (stateMessages.getLastD (Msg.user "")).toolCalls,
          tc2.name ∈ hitl_tools ∧ (decide tc2).ty = "ignore")) := by
  constructor
  · intro hmem hty
    have hok : ∃ cfg, review_config tc.name = .ok cfg := by
      simp only [hitl_tools, List.mem_cons, List.mem_singleton, List.not_mem_nil,
        or_false] at hmem
      rcases hmem with h | h | h
      · exact ⟨⟨true, true, true, true⟩, by simp [review_config, h]⟩
      · exact ⟨⟨true, true, true, true⟩, by simp [review_config, h]⟩
      · exact ⟨⟨true, true, false, false⟩, by simp [review_config, h]⟩
    obtain ⟨cfg, hcfg⟩ := hok
    simp only [handle_tool_call, hmem, not_true_eq_false, if_false, hcfg]
    exact handle_decision_respond_frame invoke merge lastMsg stateMessages
      (decide tc) _ tc hty hmem
  · intro herr
    have h := run_tool_calls_goto_iff invoke merge decide display email_markdown
      (stateMessages.getLastD (Msg.user "")) stateMessages
      (initial_handler_state store)
      (stateMessages.getLastD (Msg.user "")).toolCalls herr
    simpa [initial_handler_state, interrupt_handler] using h

/-- Witness for C5 amended: a respond decision on a single-send batch
keeps the route at the Action Agent, and the run reports no ignore
decision. -/
theorem respond_routes_amended_witness :
    ((handle_tool_call (fun n _ => n) (fun _ c _ => c) (fun _ => ⟨"response", "fb"⟩)
        (fun _ => "") "md" (Msg.user "") []
        (initial_handler_state
          ⟨[⟨("email_assistant", "response_preferences"), "user_preferences", "r"⟩]⟩)
        ⟨"send_email_tool", "a", "1"⟩).execs =
      (initial_handler_state
        ⟨[⟨("email_assistant", "response_preferences"), "user_preferences", "r"⟩]⟩).execs) ∧
    ((handle_tool_call (fun n _ => n) (fun _ c _ => c) (fun _ => ⟨"response", "fb"⟩)
        (fun _ => "") "md" (Msg.user "") []
        (initial_handler_state
          ⟨[⟨("email_assistant", "response_preferences"), "user_preferences", "r"⟩]⟩)
        ⟨"send_email_tool", "a", "1"⟩).result =
      [Msg.tool
        ("User gave feedback, which can we incorporate into the email. Feedback: " ++
          "fb") "1"]) ∧
    ((interrupt_handler (fun n _ => n) (fun _ c _ => c) (fun _ => ⟨"response", "fb"⟩)
        (fun _ => "") "md" [Msg.assistant "" [⟨"send_email_tool", "a", "1"⟩]]
        ⟨[⟨("email_assistant", "response_preferences"), "user_preferences", "r"⟩]⟩).goto =
      GraphNode.end_ ↔
      ∃ tc2 ∈ (([Msg.assistant "" [⟨"send_email_tool", "a", "1"⟩]] : List Msg).getLastD
          (Msg.user "")).toolCalls,
        tc2.name ∈ hitl_tools ∧
          ((fun _ => (⟨"response", "fb"⟩ : Response)) tc2).ty = "ignore") := by
  refine ⟨?_, ?_, ?_⟩
  · exact ((respond_routes_amended (fun n _ => n) (fun _ c _ => c)
      (fun _ => ⟨"response", "fb"⟩) (fun _ => "") "md" (Msg.user "") []
      (initial_handler_state
        ⟨[⟨("email_assistant", "response_preferences"), "user_preferences", "r"⟩]⟩)
      ⟨"send_email_tool", "a", "1"⟩ ⟨[]⟩).1 (by decide) rfl).1
  · have h := ((respond_routes_amended (fun n _ => n) (fun _ c _ => c)
      (fun _ => ⟨"response", "fb"⟩) (fun _ => "") "md" (Msg.user "") []
      (initial_handler_state
        ⟨[⟨("email_assistant", "response_preferences"), "user_preferences", "r"⟩]⟩)
      ⟨"send_email_tool", "a", "1"⟩ ⟨[]⟩).1 (by decide) rfl).2.2
    simpa [initial_handler_state, respond_feedback_lead] using h
  · exact (respond_routes_amended (fun n _ => n) (fun _ c _ => c)
      (fun _ => ⟨"response", "fb"⟩) (fun _ => "") "md" (Msg.user "")
      [Msg.assistant "" [⟨"send_email_tool", "a", "1"⟩]]
      (initial_handler_state ⟨[]⟩) ⟨"send_email_tool", "a", "1"⟩
      ⟨[⟨("email_assistant", "response_preferences"), "user_preferences", "r"⟩]⟩).2
      (by decide)
